import Mathlib

/-!
# Verification of the rss-reader ingestion pipeline

Shallow embedding, in Lean, of the parts of the `Sheraff/rss-reader`
repository that the specification's claims are about:

* the slug generator (`src/db/slug.ts`),
* the feed-refresh workflow `parseFeed` (`src/inngest/parse-feed.ts`),
* the article-extraction persist step of `parseArticle`
  (`src/inngest/parse-article.ts`),
* the feed-discovery step and the fetch steps of `addFeed`
  (`src/inngest/add-feed.ts`),
* the SSE notification hub (`src/sse/lib/sse-server.ts`).

The SQLite store is modelled as explicit lists of rows; the durable job
steps become pure functions over that state; the ambient JavaScript
facilities the code calls out to (`new URL`, `new Date`, `rss-parser`,
`JSON.stringify`, the wall clock) are passed in as an explicit
environment so that every definition stays executable.  Thrown errors are
modelled with `Except` together with the inngest error taxonomy
(`Error` → retriable, `NonRetriableError` → fatal, `RetryAfterError` →
rate-limit signal with a delay).
-/

set_option maxHeartbeats 1000000

namespace RssReader

/-! ## JavaScript string primitives used by `src/db/slug.ts`

`String` in Lean is a list of characters; the JS code manipulates UTF-16
strings.  For the character classes actually used by the slug code
(`/[^a-z0-9]+/`, `/^-+|-+$/`, whitespace trimming, ASCII lowercasing) the
two agree on every input we reason about; any non-ASCII character is in
`[^a-z0-9]` both before and after `toLowerCase`, so the case-mapping
differences are invisible to the slugifier. -/

/-- Is `c` in the character class `[a-z0-9]` of the slug regexes? -/
def isLowerAlnum (c : Char) : Bool :=
  ('a' ≤ c && c ≤ 'z') || ('0' ≤ c && c ≤ '9')

/-- Whitespace as removed by `String.prototype.trim` (the ASCII cases). -/
def isJsSpace (c : Char) : Bool :=
  c = ' ' || c = '\t' || c = '\n' || c = '\r'

/-- `s.trim()`: drop whitespace from both ends. -/
def jsTrim (l : List Char) : List Char :=
  ((l.dropWhile isJsSpace).reverse.dropWhile isJsSpace).reverse

/-- Worker for `collapseRuns`; the flag records whether the previous
character was part of a non-alphanumeric run (whose hyphen has already
been emitted). -/
def collapseAux : Bool → List Char → List Char
  | _, [] => []
  | inRun, c :: rest =>
    if isLowerAlnum c then c :: collapseAux false rest
    else if inRun then collapseAux true rest
    else '-' :: collapseAux true rest

/-- `.replace(/[^a-z0-9]+/g, "-")`: every maximal run of characters outside
`[a-z0-9]` becomes a single hyphen. -/
def collapseRuns (l : List Char) : List Char :=
  collapseAux false l

/-- `.replace(/^-+|-+$/g, "")`: strip leading and trailing hyphen runs. -/
def stripHyphens (l : List Char) : List Char :=
  ((l.dropWhile (· = '-')).reverse.dropWhile (· = '-')).reverse

/-- The title branch of the base-slug computation in `generateUniqueSlug`
and `generateUniqueArticleSlug`:
`title.toLowerCase().trim().replace(/[^a-z0-9]+/g,"-").replace(/^-+|-+$/g,"").substring(0,100)`. -/
def slugifyTitle (t : String) : String :=
  ⟨(stripHyphens (collapseRuns (jsTrim (t.data.map Char.toLower)))).take 100⟩

/-- The URL-domain fallback of `generateUniqueSlug`, applied to
`new URL(feedUrl).hostname`:
`.replace(/^www\./,"").replace(/\./g,"-").substring(0,100)`. -/
def hostSlug (host : String) : String :=
  let h := if host.data.take 4 = ['w', 'w', 'w', '.'] then host.data.drop 4 else host.data
  ⟨(h.map (fun c => if c = '.' then '-' else c)).take 100⟩

/-- Worker for `natChars`: the fuel strictly exceeds the number of
decimal digits, so the `0` case is unreachable. -/
def natCharsAux : Nat → Nat → List Char
  | 0, _ => []
  | fuel + 1, n =>
    if n < 10 then [Char.ofNat (48 + n)]
    else natCharsAux fuel (n / 10) ++ [Char.ofNat (48 + n % 10)]

/-- Decimal digits of `n`, as produced by JS string interpolation of a
non-negative integer. -/
def natChars (n : Nat) : List Char :=
  natCharsAux (n + 1) n

/-- One candidate of the uniqueness loop:
`baseSlug.substring(0, 100 - suffixStr.length) + suffixStr` with
`suffixStr = "-" + suffix`.  (JS `substring` clamps a negative end index to
`0`, which truncated subtraction on `Nat` reproduces.) -/
def suffixSlug (base : String) (k : Nat) : String :=
  let sfx := '-' :: natChars k
  ⟨base.data.take (100 - sfx.length) ++ sfx⟩

/-- Candidate number `k` tried by the loop: the bare base first, then the
suffixed variants `base-1`, `base-2`, …. -/
def candidateSlug (base : String) : Nat → String
  | 0 => base
  | k + 1 => suffixSlug base (k + 1)

/-- The `while (true)` uniqueness loop of `src/db/slug.ts`, with
`existing` standing for the slugs present in the relevant table (the loop
body's `SELECT … WHERE slug = ?` probe is membership in that list).  The
JS loop is unbounded; because the candidates it tries are pairwise
distinct, at most `existing.length + 1` probes can fail, so running the
loop on that much fuel is exact.  The fuel-exhausted line returns the
current candidate and is unreachable from `generateUniqueSlug`. -/
def findFreeSlug (existing : List String) (base : String) : Nat → Nat → String
  | 0, k => candidateSlug base k
  | fuel + 1, k =>
    let cand := candidateSlug base k
    if existing.contains cand then findFreeSlug existing base fuel (k + 1) else cand

/-- Base-slug computation of `generateUniqueSlug`: the slugified title
when the title is truthy with non-blank trim, else the URL-domain
fallback (`"feed"` when `new URL` throws), with a final empty check. -/
def feedBaseSlug (hostnameOf : String → Option String)
    (title : Option String) (feedUrl : String) : String :=
  let fromTitle : String :=
    match title with
    | some t => if t ≠ "" && jsTrim t.data ≠ [] then slugifyTitle t else ""
    | none => ""
  let base1 : String :=
    if fromTitle = "" then
      match hostnameOf feedUrl with
      | some h => hostSlug h
      | none => "feed"
    else fromTitle
  if base1 = "" then "feed" else base1

/-- `generateUniqueSlug` of `src/db/slug.ts`.  `hostnameOf` models
`new URL(·).hostname` (`none` = the constructor threw); `existing` models
the slugs in the `feeds` table. -/
def generateUniqueSlug (hostnameOf : String → Option String)
    (title : Option String) (feedUrl : String) (existing : List String) : String :=
  findFreeSlug existing (feedBaseSlug hostnameOf title feedUrl) (existing.length + 1) 0

/-- `/\.[^.]*$/` removal: drop everything from the last `.` (inclusive) to
the end; no-op when there is no dot. -/
def stripExt (l : List Char) : List Char :=
  if l.contains '.' then (((l.reverse.dropWhile (· ≠ '.')).drop 1).reverse) else l

/-- The URL-path fallback of `generateUniqueArticleSlug`: last non-empty
segment of the pathname, lowercased, extension removed, slugified. -/
def lastSegmentSlug (path : String) : String :=
  let segs := (path.splitOn "/").filter (· ≠ "")
  match segs.getLast? with
  | none => ""
  | some seg =>
    ⟨(stripHyphens (collapseRuns (stripExt (seg.data.map Char.toLower)))).take 100⟩

/-- `generateUniqueArticleSlug` of `src/db/slug.ts`.  `pathnameOf` models
`new URL(·).pathname`; `existing` models the slugs of the articles of the
feed the row is being inserted into (the loop probes
`SELECT … WHERE feed_id = ? AND slug = ?`). -/
def generateUniqueArticleSlug (pathnameOf : String → Option String)
    (existing : List String) (title : Option String) (articleUrl : Option String) : String :=
  let fromTitle : String :=
    match title with
    | some t => if t ≠ "" && jsTrim t.data ≠ [] then slugifyTitle t else ""
    | none => ""
  let base1 : String :=
    if fromTitle = "" then
      match articleUrl with
      | some u =>
        if u ≠ "" then
          match pathnameOf u with
          | some path => lastSegmentSlug path
          | none => ""
        else ""
      | none => ""
    else fromTitle
  findFreeSlug existing (if base1 = "" then "article" else base1) (existing.length + 1) 0

/-! ## Data model

Rows of the SQLite store (`src/db/schema.sql`), restricted to the columns
the ingestion pipeline reads or writes.  `TEXT` columns are `Option
String` when nullable; timestamps are kept as the ISO-8601 strings the
code stores (SQLite compares `TEXT` timestamps bytewise, which on ISO
strings is chronological order). -/

structure FeedRow where
  id : Nat
  url : String
  slug : Option String
  title : Option String
  description : Option String
  link : Option String
  language : Option String
  author_name : Option String
  image_url : Option String
  image_title : Option String
  last_build_date : Option String
  ttl : Option Nat
  etag : Option String
  last_modified_header : Option String
  last_fetched_at : Option String
  last_success_at : Option String
  fetch_error_count : Nat
  fetch_error_message : Option String
  is_active : Bool
deriving DecidableEq

structure ArticleRow where
  id : Nat
  feed_id : Nat
  guid : String
  guid_is_permalink : Bool
  url : Option String
  slug : String
  title : String
  content : Option String
  summary : Option String
  author_name : Option String
  source_title : Option String
  published_at : Option String
  categories : Option String
  fetch_status : String
deriving DecidableEq

/-- The store: `feeds`, `articles` (with `UNIQUE(feed_id, guid)` enforced
by the insert logic below), `subscriptions` as `(user_id, feed_id)`
pairs, and the rowid counter that `AUTOINCREMENT` advances. -/
structure Db where
  feeds : List FeedRow
  articles : List ArticleRow
  subscriptions : List (String × Nat)
  nextArticleId : Nat
deriving DecidableEq

/-! ## Job-error taxonomy and ambient JavaScript environment -/

/-- Outcome classification of a failed inngest step: a thrown `Error` is
retriable, a thrown `NonRetriableError` aborts the job with no further
attempts, a thrown `RetryAfterError` re-schedules the job after the
signalled delay (`none` models `parseInt` returning `NaN`). -/
inductive StepError where
  | retriable (msg : String)
  | nonRetriable (msg : String)
  | rateLimit (seconds : Option Int)
deriving DecidableEq

/-- One `item` of an `rss-parser` result, with the fields `parseFeed`
reads.  `contentEncoded` is the `item["content:encoded"]` access; a field
is `some` exactly when the parser produced a string there. -/
structure FeedItem where
  guid : Option String
  link : Option String
  title : Option String
  content : Option String
  contentEncoded : Option String
  contentSnippet : Option String
  summary : Option String
  creator : Option String
  author : Option String
  pubDate : Option String
  categories : Option (List String)
deriving DecidableEq

/-- An `rss-parser` feed-level result, with the fields `parseFeed` reads
(`itunesAuthor` = `parsedFeed.itunes?.author`, `itunesImage` =
`parsedFeed.itunes?.image`, `imageUrl`/`imageTitle` =
`parsedFeed.image?.url` / `.title`); `items` models
`parsedFeed.items ?? []`. -/
structure ParsedFeed where
  title : Option String
  description : Option String
  link : Option String
  language : Option String
  itunesAuthor : Option String
  itunesImage : Option String
  imageUrl : Option String
  imageTitle : Option String
  lastBuildDate : Option String
  items : List FeedItem
deriving DecidableEq

/-- The ambient JavaScript facilities a workflow run calls out to, made
explicit so the embedding stays a pure function:

* `now` — `CURRENT_TIMESTAMP` for this run;
* `parseRss` — the settled outcome of `new Parser().parseString(xml)`
  (this method is `async`: it returns a promise and never throws
  synchronously; `.error e` is the rejection carrying the parse error);
* `hostnameOf` / `pathnameOf` — `new URL(u).hostname` / `.pathname`,
  `none` when the `URL` constructor throws;
* `toIso` — `new Date(s).toISOString()`;
* `stringifyList` — `JSON.stringify` on a category list. -/
structure JsEnv where
  now : String
  parseRss : String → Except String ParsedFeed
  hostnameOf : String → Option String
  pathnameOf : String → Option String
  toIso : String → String
  stringifyList : List String → String

/-- An upstream HTTP response as the fetch steps observe it: status,
the headers they read, and the text body. -/
structure HttpResponse where
  status : Nat
  retryAfter : Option String
  etag : Option String
  lastModified : Option String
  contentType : Option String
  body : String
deriving DecidableEq

/-- `Response.ok`: status in the 2xx range. -/
def responseOk (r : HttpResponse) : Bool :=
  200 ≤ r.status && r.status ≤ 299

/-- JS truthiness of `response.headers.get(h)`: the header must be
present with a non-empty value. -/
def truthyHeader : Option String → Bool
  | some s => s ≠ ""
  | none => false

/-- `parseInt(s, 10)`: optional sign after leading whitespace, then the
longest digit prefix; `none` models `NaN`. -/
def jsParseInt (s : String) : Option Int :=
  let digitsVal : List Char → Option Nat := fun l =>
    let ds := l.takeWhile (fun c => '0' ≤ c && c ≤ '9')
    if ds = [] then none else some (ds.foldl (fun acc c => acc * 10 + (c.toNat - 48)) 0)
  match s.data.dropWhile isJsSpace with
  | '-' :: rest => (digitsVal rest).map (fun n => -(n : Int))
  | '+' :: rest => (digitsVal rest).map (fun n => (n : Int))
  | t => (digitsVal t).map (fun n => (n : Int))

/-- JS `??` on our `Option` model of nullable values (note `?? ` keeps an
empty string, unlike truthiness tests). -/
def jsNullish (a b : Option String) : Option String :=
  match a with
  | some v => some v
  | none => b

/-- JS `cond ? f(s) : null` where `cond` is the truthiness of the string
itself (so the empty string maps to `null`). -/
def truthyThen (f : String → String) : Option String → Option String
  | some s => if s = "" then none else some (f s)
  | none => none

/-! ## Feed-refresh workflow (`parseFeed`, src/inngest/parse-feed.ts) -/

/-- Classification performed by the `fetch-rss-feed` step on the response
(the request itself, with its conditional headers built from the stored
`etag` / `last_modified_header`, is abstracted into `resp`):
304 short-circuits to not-modified; 429 with a truthy `Retry-After`
header throws `RetryAfterError`; any other non-2xx throws a plain
(retriable) `Error`; otherwise the body and validators are returned. -/
inductive FetchOutcome where
  | notModified
  | modified (xml : String) (etag : Option String) (lastModified : Option String)
deriving DecidableEq

def fetchRssFeed (resp : HttpResponse) : Except StepError FetchOutcome :=
  if resp.status = 304 then .ok .notModified
  else if resp.status = 429 && truthyHeader resp.retryAfter then
    .error (.rateLimit (jsParseInt (resp.retryAfter.getD "")))
  else if !responseOk resp then .error (.retriable "HTTP error")
  else .ok (.modified resp.body resp.etag resp.lastModified)

/-- The `parse-rss-xml` step.  The source wraps
`return parser.parseString(fetchResult.xml)` in `try … catch` and throws
`NonRetriableError` from the `catch`; but `parseString` is `async`, the
returned promise is not awaited inside the `try`, and a parse failure is
a *rejection* of that promise, not a synchronous throw — so it propagates
past the `catch` to `step.run` as the original (plain, retriable) error
and the `NonRetriableError` wrapper is dead code.  (Contrast
`add-feed.ts`, whose `validate-rss` step does `await
parser.parseString(…)` inside its `try` and therefore does catch parse
failures.) -/
def parseRssXml (env : JsEnv) (xml : String) : Except StepError ParsedFeed :=
  match env.parseRss xml with
  | .ok parsed => .ok parsed
  | .error e => .error (.retriable e)

/-- The guid dedup key of an entry:
`item.guid ?? item.link ?? item.title ?? "unknown"`. -/
def guidOf (item : FeedItem) : String :=
  (jsNullish item.guid (jsNullish item.link item.title)).getD "unknown"

/-- The `update-feed-metadata` step: regenerate the slug from the parsed
title (probing the slugs present in `feeds`), then overwrite the
descriptive columns, cache validators, stamps, and reset the error
counter, on the row `WHERE id = feedId`. -/
def updateFeedMetadata (env : JsEnv) (db : Db) (feed : FeedRow) (feedId : Nat)
    (parsed : ParsedFeed) (etag lastModified : Option String) : Db :=
  let newSlug := generateUniqueSlug env.hostnameOf parsed.title feed.url
    (db.feeds.filterMap (fun f => f.slug))
  { db with feeds := db.feeds.map (fun f =>
      if f.id = feedId then
        { f with
          slug := some newSlug
          title := parsed.title
          description := parsed.description
          link := parsed.link
          language := parsed.language
          author_name := parsed.itunesAuthor
          image_url := jsNullish parsed.imageUrl parsed.itunesImage
          image_title := parsed.imageTitle
          last_build_date := truthyThen env.toIso parsed.lastBuildDate
          etag := etag
          last_modified_header := lastModified
          last_fetched_at := some env.now
          last_success_at := some env.now
          fetch_error_count := 0
          fetch_error_message := none }
      else f) }

/-- Does an article row with the dedup key `(feedId, guid)` already
exist?  This is what `INSERT OR IGNORE` checks against the
`UNIQUE(feed_id, guid)` constraint. -/
def keyExists (articles : List ArticleRow) (feedId : Nat) (guid : String) : Bool :=
  articles.any (fun a => a.feed_id = feedId && a.guid = guid)

/-- The row built from one feed entry by the `insert-articles` loop. -/
def rowOfItem (env : JsEnv) (db : Db) (feedId : Nat) (item : FeedItem) : ArticleRow :=
  { id := db.nextArticleId
    feed_id := feedId
    guid := guidOf item
    guid_is_permalink :=
      match item.guid with
      | some g => g ≠ "" && item.link = some g
      | none => false
    url := item.link
    slug := generateUniqueArticleSlug env.pathnameOf
      ((db.articles.filter (fun a => a.feed_id = feedId)).map (fun a => a.slug))
      (some (item.title.getD "Untitled")) item.link
    title := item.title.getD "Untitled"
    content := jsNullish item.content item.contentEncoded
    summary := jsNullish item.contentSnippet item.summary
    author_name := jsNullish item.creator item.author
    source_title := none
    published_at := truthyThen env.toIso item.pubDate
    categories := item.categories.map env.stringifyList
    fetch_status := "none" }

/-- The `insert-articles` step: for each entry, generate a per-feed slug,
`INSERT OR IGNORE` the row, and record `lastInsertRowid` when
`changes > 0`.  A duplicate `(feed_id, guid)` key makes the insert a
no-op (`changes = 0`); the loop continues and the entry is not counted.
(The source computes the slug before issuing the insert; slug generation
only reads the store, so hoisting it into the non-duplicate branch, as
done here via `rowOfItem`, leaves every observable unchanged.) -/
def insertArticles (env : JsEnv) (db : Db) (feedId : Nat) :
    List FeedItem → Db × List Nat
  | [] => (db, [])
  | item :: rest =>
    if keyExists db.articles feedId (guidOf item) then
      insertArticles env db feedId rest
    else
      let row := rowOfItem env db feedId item
      let db1 : Db := { db with
        articles := db.articles ++ [row]
        nextArticleId := db.nextArticleId + 1 }
      let res := insertArticles env db1 feedId rest
      (res.1, db.nextArticleId :: res.2)

/-- Lexicographic (codepoint) order on character lists: SQLite compares
`TEXT` values bytewise, which on the stored ISO-8601 timestamps agrees
with this order and with chronological order. -/
def lexLe : List Char → List Char → Bool
  | [], _ => true
  | _ :: _, [] => false
  | a :: as, b :: bs =>
    if a.toNat < b.toNat then true
    else if b.toNat < a.toNat then false
    else lexLe as bs

/-- `ORDER BY published_at DESC` priority between two nullable
timestamps: SQLite sorts `NULL` as smallest, so descending order puts
`NULL` rows last. -/
def pubGe (a b : Option String) : Bool :=
  match a, b with
  | some x, some y => lexLe y.data x.data
  | some _, none => true
  | none, some _ => false
  | none, none => true

/-- Stable insertion into a `pubGe`-descending list: `x` goes before the
first element that is not strictly more recent, so rows with equal keys
keep their rowid order (the order SQLite scans them in). -/
def insertByPub (x : ArticleRow) : List ArticleRow → List ArticleRow
  | [] => [x]
  | y :: ys =>
    if pubGe y.published_at x.published_at && !pubGe x.published_at y.published_at then
      y :: insertByPub x ys
    else x :: y :: ys

/-- Stable sort by `published_at` descending, `NULL`s last. -/
def sortByPubDesc : List ArticleRow → List ArticleRow
  | [] => []
  | x :: xs => insertByPub x (sortByPubDesc xs)

/-- The `get-recent-articles` step:
`SELECT id FROM articles WHERE feed_id = ? ORDER BY published_at DESC
LIMIT 20`.  Note that it ranges over *all* articles of the feed, not only
the ones inserted by the current run. -/
def recentArticleIds (db : Db) (feedId : Nat) : List Nat :=
  ((sortByPubDesc (db.articles.filter (fun a => a.feed_id = feedId))).take 20).map
    (fun a => a.id)

/-- `SELECT DISTINCT user_id FROM subscriptions WHERE feed_id = ?`,
keeping first-occurrence order. -/
def subscribersOf (db : Db) (feedId : Nat) : List String :=
  ((db.subscriptions.filter (fun s => s.2 = feedId)).map (fun s => s.1)).foldl
    (fun acc u => if acc.contains u then acc else acc ++ [u]) []

/-- Observable outcome of one `parseFeed` run: the final store, the
`article/parse` events fanned out by `step.sendEvent` (article ids), the
users notified with `feed.parsed`, and the returned result object (the
`not-modified` return carries no counts, modelled as zeros). -/
structure RunOutput where
  db : Db
  fanOut : List Nat
  notified : List String
  status : String
  feedTitle : Option String
  totalItems : Nat
  newArticles : Nat
deriving DecidableEq

/-- The `parseFeed` inngest function, as a function of the store, the
event payload (`feedId`), and the upstream response for this run.
Step order follows the source: `validate-feed` (plain, retriable errors
when missing or inactive), `fetch-rss-feed`, the 304 short-circuit
branch (`update-last-fetched` touches only `last_fetched_at`),
`parse-rss-xml`, `update-feed-metadata`, `insert-articles`, and — only
when at least one article was inserted — `get-recent-articles`,
`fan-out-parse-articles` and `notify-subscribers`. -/
def parseFeedRun (env : JsEnv) (db : Db) (feedId : Nat) (resp : HttpResponse) :
    Except StepError RunOutput :=
  match db.feeds.find? (fun f => f.id = feedId) with
  | none => .error (.retriable "Feed not found")
  | some feed =>
    if !feed.is_active then .error (.retriable "Feed is not active")
    else
      match fetchRssFeed resp with
      | .error e => .error e
      | .ok .notModified =>
        let db1 : Db := { db with feeds := db.feeds.map (fun f =>
          if f.id = feedId then { f with last_fetched_at := some env.now } else f) }
        .ok { db := db1, fanOut := [], notified := [], status := "not-modified",
              feedTitle := none, totalItems := 0, newArticles := 0 }
      | .ok (.modified xml etag lastModified) =>
        match parseRssXml env xml with
        | .error e => .error e
        | .ok parsed =>
          let db1 := updateFeedMetadata env db feed feedId parsed etag lastModified
          let res := insertArticles env db1 feedId parsed.items
          let fanOut := if res.2.isEmpty then [] else recentArticleIds res.1 feedId
          let notified := if res.2.isEmpty then [] else subscribersOf res.1 feedId
          .ok { db := res.1, fanOut := fanOut, notified := notified,
                status := "success", feedTitle := parsed.title,
                totalItems := parsed.items.length, newArticles := res.2.length }

/-! ## Add-feed workflow (`addFeed`, src/inngest/add-feed.ts) -/

/-- The `fetch-url` step of `addFeed`: 429 with a truthy `Retry-After`
throws `RetryAfterError`; any other non-2xx throws a plain `Error`;
otherwise the body and `content-type` header (`|| ""`) are returned. -/
def fetchUrl (resp : HttpResponse) : Except StepError (String × String) :=
  if resp.status = 429 && truthyHeader resp.retryAfter then
    .error (.rateLimit (jsParseInt (resp.retryAfter.getD "")))
  else if !responseOk resp then .error (.retriable "HTTP error")
  else .ok (resp.body, resp.contentType.getD "")

/-- One `validate-discovered-feeds` step of `addFeed`: 429 with a truthy
`Retry-After` throws `RetryAfterError`; otherwise a candidate URL is kept
(`some url`) exactly when the response is 2xx and its body parses as a
feed (here the parse *is* awaited, so the `catch` works); non-2xx or
unparseable candidates are dropped (`none`), not errors. -/
def validateDiscoveredFeed (parseRss : String → Except String ParsedFeed)
    (url : String) (resp : HttpResponse) : Except StepError (Option String) :=
  if resp.status = 429 && truthyHeader resp.retryAfter then
    .error (.rateLimit (jsParseInt (resp.retryAfter.getD "")))
  else if responseOk resp then
    match parseRss resp.body with
    | .ok _ => .ok (some url)
    | .error _ => .ok none
  else .ok none

/-- A `<link rel=… type=… href=…>` element as the discovery step reads
it (`getAttribute` returns `none` when the attribute is absent). -/
structure LinkEl where
  rel : String
  linkType : Option String
  href : Option String
deriving DecidableEq

/-- An `<a href=…>` element as the discovery step reads it. -/
structure AnchorEl where
  href : Option String
deriving DecidableEq

/-- The parsed HTML document: the elements matched by
`querySelectorAll('link[rel="alternate"]')` are `links` filtered on
`rel`, and those matched by `querySelectorAll("a[href]")` are
`anchors`. -/
structure HtmlDoc where
  links : List LinkEl
  anchors : List AnchorEl
deriving DecidableEq

/-- The RSS/Atom/XML MIME types accepted for an alternate link. -/
def isFeedType (t : String) : Bool :=
  t = "application/rss+xml" || t = "application/atom+xml" ||
  t = "application/xml" || t = "text/xml"

/-- JS `Set` insertion: append unless already present (iteration order is
insertion order). -/
def addCand (acc : List String) (u : String) : List String :=
  if acc.contains u then acc else acc ++ [u]

/-- The `discover-rss-feeds` step of `addFeed`, run when the body did not
parse as a feed.  `urlParse u` models `new URL(u).toString()` and
`urlResolve href base` models `new URL(href, base).toString()` (`none` =
the constructor threw).

Faithful to the source, including its slip: in the alternate-link loop
the first `try` block computes `new URL(feedUrl).toString()` — the page's
own URL, not the link's `href` — adds it and `continue`s; since `feedUrl`
is always a valid absolute URL (it was just fetched), the later
`new URL(href, feedUrl)` branch is unreachable and the `href` of a
declared alternate link never reaches the candidate set.  The anchor loop
below it handles `href` as intended. -/
def discoverRssFeeds (urlParse : String → Option String)
    (urlResolve : String → String → Option String)
    (doc : HtmlDoc) (feedUrl : String) : List String :=
  let afterLinks := doc.links.foldl (fun acc link =>
    if link.rel = "alternate" then
      match link.href with
      | some href =>
        if href ≠ "" && (match link.linkType with
            | some t => isFeedType t
            | none => false) then
          match urlParse feedUrl with
          | some u => addCand acc u
          | none =>
            match urlResolve href feedUrl with
            | some u => addCand acc u
            | none => acc
        else acc
      | none => acc
    else acc) []
  doc.anchors.foldl (fun acc a =>
    match a.href with
    | some href =>
      if href ≠ "" && (href.endsWith ".rss" || href.endsWith ".xml") then
        match urlParse href with
        | some u => addCand acc u
        | none =>
          match urlResolve href feedUrl with
          | some u => addCand acc u
          | none => acc
      else acc
    | none => acc) afterLinks

/-! ## Article-extraction persist step (`parseArticle`, src/inngest/parse-article.ts) -/

/-- The fields of a Readability result that the `update-article-content`
step persists (each is `some` exactly when the extractor produced a
non-null value; `content` is the sanitized, URL-rewritten HTML). -/
structure ExtractResult where
  content : Option String
  excerpt : Option String
  byline : Option String
  siteName : Option String
  publishedTime : Option String
deriving DecidableEq

/-- SQL `COALESCE(?, col)` with the new value bound first: a non-null
extracted value overwrites, null keeps the current column. -/
def coalesceNew (newVal : Option String) (cur : Option String) : Option String :=
  match newVal with
  | some v => some v
  | none => cur

/-- The `update-article-content` step applied to the row `WHERE id = ?`:
`content` is overwritten unconditionally with `parsed.content ?? ""`,
`summary`/`author_name`/`source_title`/`published_at` go through
`COALESCE(new, current)`, and `fetch_status` becomes `complete`. -/
def updateArticleContent (row : ArticleRow) (parsed : ExtractResult) : ArticleRow :=
  { row with
    content := some (parsed.content.getD "")
    summary := coalesceNew parsed.excerpt row.summary
    author_name := coalesceNew parsed.byline row.author_name
    source_title := coalesceNew parsed.siteName row.source_title
    published_at := coalesceNew parsed.publishedTime row.published_at
    fetch_status := "complete" }

/-! ## Notification hub (`createSseServer`, src/sse/lib/sse-server.ts)

The `EventStream` object is opaque to the hub; it is modelled by a
numeric handle.  The hub never calls any method on a stream other than
`push`, so a stream leaves the "open" state only when its owner (the
route handler's `onClosed` callback) closes it — the hub itself closes
nothing.  To make that observable, the state carries a `closedStreams`
ledger that would record any close the hub performed. -/

structure SseState where
  connections : List (String × Nat)
  closedStreams : List Nat
deriving DecidableEq

/-- `removeConnection(userId)`: delete the user's entry from the `Map`
(if any).  No method is invoked on the stream — in particular it is not
closed. -/
def removeConnection (st : SseState) (userId : String) : SseState :=
  { st with connections := st.connections.filter (fun p => p.1 ≠ userId) }

/-- `addConnection(userId, stream)`: `removeConnection` first, then
`connections.set(userId, …)`.  (The initial `'ping'` push has its
rejection swallowed by `.catch` and does not affect the registry.) -/
def addConnection (st : SseState) (userId : String) (stream : Nat) : SseState :=
  let st1 := removeConnection st userId
  { st1 with connections := st1.connections ++ [(userId, stream)] }

/-- `connections.get(userId)`. -/
def getConn (st : SseState) (userId : String) : Option Nat :=
  (st.connections.find? (fun p => p.1 = userId)).map (fun p => p.2)

/-- Result of `notifyUser`: the registry afterwards and the returned
boolean. -/
structure NotifyResult where
  state : SseState
  delivered : Bool
deriving DecidableEq

/-- `notifyUser(userId, event, data)`.  `validate ev payload` is
`v.safeParse(schemas[ev], payload).success` (safeParse reports rather
than throws); `pushOk s` is whether `stream.push(…)` settles
successfully.  Every failure path returns `false`: validation failure
and a missing connection leave the registry untouched; a push rejection
is caught, the stale connection is removed, and `false` is returned.
The function is total — no input makes it throw. -/
def notifyUser (validate : String → String → Bool) (pushOk : Nat → Bool)
    (st : SseState) (userId : String) (event : String) (payload : String) :
    NotifyResult :=
  if !validate event payload then ⟨st, false⟩
  else
    match getConn st userId with
    | none => ⟨st, false⟩
    | some stream =>
      if pushOk stream then ⟨st, true⟩
      else ⟨removeConnection st userId, false⟩

/-! ## Derived notions used by the statements -/

/-- `UNIQUE(feed_id, guid)`: no two article rows share a dedup key. -/
def articlesKeyUnique (l : List ArticleRow) : Prop :=
  l.Pairwise (fun a b => ¬(a.feed_id = b.feed_id ∧ a.guid = b.guid))

/-- The store after one refresh run (a failed run leaves the modelled
store as the transaction and step semantics left it at the start). -/
def applyRun (db : Db) (run : JsEnv × Nat × HttpResponse) : Db :=
  match parseFeedRun run.1 db run.2.1 run.2.2 with
  | .ok out => out.db
  | .error _ => db

/-! ## Concrete sample inputs used by counterexamples and witnesses -/

/-- A feed entry published 2026-01-10, older than the already-stored
article below. -/
def c1Item : FeedItem :=
  { guid := some "new-1", link := none, title := some "New One", content := none,
    contentEncoded := none, contentSnippet := none, summary := none, creator := none,
    author := none, pubDate := some "2026-01-10T10:00:00.000Z", categories := none }

def c1Parsed : ParsedFeed :=
  { title := some "Test Blog", description := none, link := none, language := none,
    itunesAuthor := none, itunesImage := none, imageUrl := none, imageTitle := none,
    lastBuildDate := none, items := [c1Item] }

def c1Env : JsEnv :=
  { now := "2026-02-01T00:00:00.000Z", parseRss := fun _ => .ok c1Parsed,
    hostnameOf := fun _ => some "example.com", pathnameOf := fun _ => none,
    toIso := fun s => s, stringifyList := fun _ => "[]" }

/-- An article that already exists before the refresh run, published
2026-01-15 — more recently than the incoming entry. -/
def c1OldArticle : ArticleRow :=
  { id := 1, feed_id := 1, guid := "old-1", guid_is_permalink := false, url := none,
    slug := "old-article", title := "Old", content := none, summary := none,
    author_name := none, source_title := none,
    published_at := some "2026-01-15T10:00:00.000Z", categories := none,
    fetch_status := "none" }

def c1Feed : FeedRow :=
  { id := 1, url := "https://example.com/feed.xml", slug := none, title := none,
    description := none, link := none, language := none, author_name := none,
    image_url := none, image_title := none, last_build_date := none, ttl := none,
    etag := none, last_modified_header := none, last_fetched_at := none,
    last_success_at := none, fetch_error_count := 0, fetch_error_message := none,
    is_active := true }

def c1Db : Db :=
  { feeds := [c1Feed], articles := [c1OldArticle], subscriptions := [],
    nextArticleId := 2 }

def c1Resp : HttpResponse :=
  { status := 200, retryAfter := none, etag := none, lastModified := none,
    contentType := none, body := "<rss/>" }

/-- The output of the sample refresh run. -/
def c1Out : RunOutput :=
  (parseFeedRun c1Env c1Db 1 c1Resp).toOption.getD
    { db := c1Db, fanOut := [], notified := [], status := "",
      feedTitle := none, totalItems := 0, newArticles := 0 }

/-- A page that declares one alternate RSS link with a relative href. -/
def c2Doc : HtmlDoc :=
  { links := [{ rel := "alternate", linkType := some "application/rss+xml",
                href := some "/feed.xml" }],
    anchors := [] }

/-- `new URL(·)` on the inputs of the sample: the page URL is a valid
absolute URL, the relative href is not. -/
def c2UrlParse : String → Option String := fun s =>
  if s = "https://example.com/page" then some "https://example.com/page" else none

/-- `new URL(href, base)` on the inputs of the sample: resolves the
relative href against the page URL. -/
def c2UrlResolve : String → String → Option String := fun href base =>
  if href = "/feed.xml" && base = "https://example.com/page" then
    some "https://example.com/feed.xml"
  else none

/-- An environment whose `rss-parser` rejects every body. -/
def c3Env : JsEnv :=
  { now := "2026-02-01T00:00:00.000Z", parseRss := fun _ => .error "Invalid XML",
    hostnameOf := fun _ => none, pathnameOf := fun _ => none,
    toIso := fun s => s, stringifyList := fun _ => "[]" }

def c3Feed : FeedRow :=
  { id := 1, url := "https://example.com/feed.xml", slug := none, title := none,
    description := none, link := none, language := none, author_name := none,
    image_url := none, image_title := none, last_build_date := none, ttl := none,
    etag := none, last_modified_header := none, last_fetched_at := none,
    last_success_at := none, fetch_error_count := 0, fetch_error_message := none,
    is_active := true }

def c3Db : Db :=
  { feeds := [c3Feed], articles := [], subscriptions := [], nextArticleId := 1 }

def c3Resp : HttpResponse :=
  { status := 200, retryAfter := none, etag := none, lastModified := none,
    contentType := none, body := "this is not xml" }

/-- An article row that already carries feed-derived metadata. -/
def c4Row : ArticleRow :=
  { id := 5, feed_id := 2, guid := "g5", guid_is_permalink := false,
    url := some "https://example.com/a", slug := "a", title := "A",
    content := some "<p>rss</p>", summary := some "rss summary",
    author_name := some "RSS Author", source_title := none,
    published_at := some "2026-01-09T12:00:00.000Z", categories := none,
    fetch_status := "scheduled" }

/-- An extraction result with some fields null and some non-null. -/
def c4Extract : ExtractResult :=
  { content := none, excerpt := none, byline := some "By John Doe",
    siteName := none, publishedTime := none }

def c5Env : JsEnv :=
  { now := "2026-02-01T00:00:00.000Z", parseRss := fun _ => .error "x",
    hostnameOf := fun _ => none, pathnameOf := fun _ => none,
    toIso := fun s => s, stringifyList := fun _ => "[]" }

def c5Row : ArticleRow :=
  { id := 1, feed_id := 1, guid := "dup", guid_is_permalink := false, url := none,
    slug := "dup", title := "Dup", content := none, summary := none,
    author_name := none, source_title := none, published_at := none,
    categories := none, fetch_status := "none" }

def c5Db : Db :=
  { feeds := [], articles := [c5Row], subscriptions := [], nextArticleId := 9 }

/-- An entry whose dedup key collides with the stored article above. -/
def c5Item : FeedItem :=
  { guid := some "dup", link := none, title := none, content := none,
    contentEncoded := none, contentSnippet := none, summary := none,
    creator := none, author := none, pubDate := none, categories := none }

def c6State : SseState := ⟨[("bob", 3)], []⟩

def c9Resp : HttpResponse :=
  { status := 429, retryAfter := some "5", etag := none, lastModified := none,
    contentType := none, body := "slow down" }

def c10Feed : FeedRow :=
  { id := 7, url := "https://example.com/feed.xml", slug := some "sample",
    title := some "Sample", description := some "d", link := some "l",
    language := some "en", author_name := some "a", image_url := some "i",
    image_title := some "it", last_build_date := some "2026-01-01T00:00:00.000Z",
    ttl := some 60, etag := some "w-abc", last_modified_header := some "lm",
    last_fetched_at := some "2026-01-02T00:00:00.000Z",
    last_success_at := some "2026-01-02T00:00:00.000Z", fetch_error_count := 0,
    fetch_error_message := none, is_active := true }

def c10Article : ArticleRow :=
  { id := 1, feed_id := 7, guid := "g", guid_is_permalink := false, url := none,
    slug := "g", title := "G", content := none, summary := none,
    author_name := none, source_title := none, published_at := none,
    categories := none, fetch_status := "none" }

def c10Db : Db :=
  { feeds := [c10Feed], articles := [c10Article], subscriptions := [("u", 7)],
    nextArticleId := 2 }

def c10Env : JsEnv :=
  { now := "2026-02-03T00:00:00.000Z", parseRss := fun _ => .error "unused",
    hostnameOf := fun _ => none, pathnameOf := fun _ => none,
    toIso := fun s => s, stringifyList := fun _ => "[]" }

def c10Resp : HttpResponse :=
  { status := 304, retryAfter := none, etag := none, lastModified := none,
    contentType := none, body := "" }

/-! ## Theorems -/

/-- C4: in the article-extraction persist step, for every article row and
every extraction result, the `content` column is overwritten
unconditionally (the empty string when the extractor returned null),
while each of `summary`, `author_name`, `source_title` and `published_at`
independently keeps its current value when the extractor returns null for
that field and is overwritten when the extractor returns a non-null
value; `fetch_status` becomes `complete`. -/
theorem updateArticleContent_persist_spec (row : ArticleRow) (parsed : ExtractResult) :
    (updateArticleContent row parsed).content = some (parsed.content.getD "") ∧
    (updateArticleContent row parsed).fetch_status = "complete" ∧
    (parsed.excerpt = none → (updateArticleContent row parsed).summary = row.summary) ∧
    (∀ v, parsed.excerpt = some v → (updateArticleContent row parsed).summary = some v) ∧
    (parsed.byline = none → (updateArticleContent row parsed).author_name = row.author_name) ∧
    (∀ v, parsed.byline = some v → (updateArticleContent row parsed).author_name = some v) ∧
    (parsed.siteName = none → (updateArticleContent row parsed).source_title = row.source_title) ∧
    (∀ v, parsed.siteName = some v → (updateArticleContent row parsed).source_title = some v) ∧
    (parsed.publishedTime = none → (updateArticleContent row parsed).published_at = row.published_at) ∧
    (∀ v, parsed.publishedTime = some v → (updateArticleContent row parsed).published_at = some v) := by
  refine ⟨rfl, rfl, fun h => ?_, fun v h => ?_, fun h => ?_, fun v h => ?_,
    fun h => ?_, fun v h => ?_, fun h => ?_, fun v h => ?_⟩ <;>
    simp [updateArticleContent, coalesceNew, h]

/-- Witness for C4 at a concrete row and extraction result: the null
excerpt keeps the feed summary, the non-null byline overwrites the feed
author, the null content becomes the empty string. -/
theorem updateArticleContent_persist_spec_witness :
    (updateArticleContent c4Row c4Extract).content = some "" ∧
    (updateArticleContent c4Row c4Extract).summary = c4Row.summary ∧
    (updateArticleContent c4Row c4Extract).author_name = some "By John Doe" :=
  ⟨(updateArticleContent_persist_spec c4Row c4Extract).1,
   (updateArticleContent_persist_spec c4Row c4Extract).2.2.1 rfl,
   (updateArticleContent_persist_spec c4Row c4Extract).2.2.2.2.2.1 "By John Doe" rfl⟩

/-- C6: `notifyUser` validates the payload against the event's schema and
returns `false` without touching the registry when validation fails;
returns `false` without touching the registry when the user has no live
connection; on transport failure removes that user's connection (so a
subsequent lookup finds none) and returns `false`; and delivers with
`true` otherwise.  The embedding is a total function: every failure mode
of the source is caught and reported through the boolean, never
thrown. -/
theorem notifyUser_spec (validate : String → String → Bool) (pushOk : Nat → Bool)
    (st : SseState) (uid ev payload : String) :
    (validate ev payload = false →
      notifyUser validate pushOk st uid ev payload = ⟨st, false⟩) ∧
    (getConn st uid = none →
      notifyUser validate pushOk st uid ev payload = ⟨st, false⟩) ∧
    (∀ s, validate ev payload = true → getConn st uid = some s → pushOk s = false →
      notifyUser validate pushOk st uid ev payload = ⟨removeConnection st uid, false⟩ ∧
      getConn (removeConnection st uid) uid = none) ∧
    (∀ s, validate ev payload = true → getConn st uid = some s → pushOk s = true →
      notifyUser validate pushOk st uid ev payload = ⟨st, true⟩) := by
  refine ⟨fun h => by simp [notifyUser, h], fun h => ?_, fun s hv hc hp => ⟨?_, ?_⟩,
    fun s hv hc hp => by simp [notifyUser, hv, hc, hp]⟩
  · cases hv : validate ev payload <;> simp [notifyUser, hv, h]
  · simp [notifyUser, hv, hc, hp]
  · simp only [getConn, removeConnection, Option.map_eq_none']
    rw [List.find?_eq_none]
    intro p hp'
    rcases List.mem_filter.mp hp' with ⟨_, hne⟩
    simpa using hne

/-- Witness for C6 at a concrete registry: a failing push removes the
connection and reports `false`; a failing validation is a pure no-op. -/
theorem notifyUser_spec_witness :
    notifyUser (fun _ _ => true) (fun _ => false) c6State "bob" "feed.parsed" "p" =
      ⟨removeConnection c6State "bob", false⟩ ∧
    getConn (removeConnection c6State "bob") "bob" = none ∧
    notifyUser (fun _ _ => false) (fun _ => false) c6State "bob" "feed.parsed" "p" =
      ⟨c6State, false⟩ :=
  ⟨((notifyUser_spec (fun _ _ => true) (fun _ => false) c6State "bob" "feed.parsed" "p").2.2.1
      3 rfl rfl rfl).1,
   ((notifyUser_spec (fun _ _ => true) (fun _ => false) c6State "bob" "feed.parsed" "p").2.2.1
      3 rfl rfl rfl).2,
   (notifyUser_spec (fun _ _ => false) (fun _ => false) c6State "bob" "feed.parsed" "p").1 rfl⟩

/-- C7: registering a new connection for a user who already has one
replaces it in the registry, but the prior connection is *not* closed —
no registry operation ever closes a stream (the `closedStreams` ledger,
which would record a close performed by the hub, never changes), even
though the source comments `// Close existing connection if any`:
`removeConnection` only deletes the `Map` entry. -/
theorem sse_register_supersedes_without_close :
    addConnection ⟨[("alice", 1)], []⟩ "alice" 2 =
      (⟨[("alice", 2)], []⟩ : SseState) ∧
    (∀ st uid s, (addConnection st uid s).closedStreams = st.closedStreams) ∧
    (∀ st uid, (removeConnection st uid).closedStreams = st.closedStreams) ∧
    (∀ validate pushOk st uid ev p,
      (notifyUser validate pushOk st uid ev p).state.closedStreams = st.closedStreams) := by
  refine ⟨by decide, fun st uid s => rfl, fun st uid => rfl,
    fun validate pushOk st uid ev p => ?_⟩
  cases hv : validate ev p
  · simp [notifyUser, hv]
  · cases hc : getConn st uid with
    | none => simp [notifyUser, hv, hc]
    | some s => cases hp : pushOk s <;> simp [notifyUser, hv, hc, hp, removeConnection]

/-- C9: a 429 response carrying a (truthy) `Retry-After` header is
classified as a `RetryAfterError` rate-limit signal — never as a fatal
error — in all three upstream fetches of the feed-refresh and add-feed
workflows. -/
theorem rateLimit_429_spec (resp : HttpResponse) (v : String)
    (h429 : resp.status = 429) (hra : resp.retryAfter = some v) (hne : v ≠ "") :
    fetchRssFeed resp = .error (.rateLimit (jsParseInt v)) ∧
    fetchUrl resp = .error (.rateLimit (jsParseInt v)) ∧
    (∀ parseRss url, validateDiscoveredFeed parseRss url resp =
      .error (.rateLimit (jsParseInt v))) ∧
    (∀ m, StepError.rateLimit (jsParseInt v) ≠ StepError.nonRetriable m) := by
  have ht : truthyHeader (some v) = true := by simp [truthyHeader, hne]
  refine ⟨?_, ?_, fun parseRss url => ?_, fun m => by simp⟩ <;>
    simp [fetchRssFeed, fetchUrl, validateDiscoveredFeed, h429, hra, ht]

/-- Witness for C9 at a concrete 429 response with `Retry-After: 5`. -/
theorem rateLimit_429_spec_witness :
    jsParseInt "5" = some 5 ∧
    fetchRssFeed c9Resp = .error (.rateLimit (jsParseInt "5")) ∧
    fetchUrl c9Resp = .error (.rateLimit (jsParseInt "5")) :=
  ⟨by decide,
   (rateLimit_429_spec c9Resp "5" rfl rfl (by decide)).1,
   (rateLimit_429_spec c9Resp "5" rfl rfl (by decide)).2.1⟩

/-- C2 (code bug): on a page whose body is not a feed and which declares
a single alternate RSS link `href="/feed.xml"`, the discovery step emits
the page's own URL as the sole candidate and the resolved href
`https://example.com/feed.xml` — which the claim (and the surrounding
code's comments) expect — never enters the candidate set: the first
`try` block resolves `feedUrl` instead of `href` and `continue`s. -/
theorem discover_alternate_link_href_dropped :
    discoverRssFeeds c2UrlParse c2UrlResolve c2Doc "https://example.com/page" =
      ["https://example.com/page"] ∧
    "https://example.com/feed.xml" ∉
      discoverRssFeeds c2UrlParse c2UrlResolve c2Doc "https://example.com/page" ∧
    c2UrlResolve "/feed.xml" "https://example.com/page" =
      some "https://example.com/feed.xml" :=
  ⟨by decide, by decide, by decide⟩

/-- C3 (code bug): when the fetched body fails to parse, the
`parse-rss-xml` step surfaces the failure as a plain *retriable* error —
the promise returned by the `async` `parseString` is not awaited inside
the `try`, so the `catch` that would wrap it into `NonRetriableError`
never fires — and the whole job instance errors retriably, contradicting
the claimed fatal, non-retriable abort. -/
theorem parse_failure_surfaces_as_retriable (env : JsEnv) (xml : String) (e : String)
    (h : env.parseRss xml = .error e) :
    parseRssXml env xml = .error (.retriable e) ∧
    (∀ m, parseRssXml env xml ≠ .error (.nonRetriable m)) ∧
    (∀ db fid resp feed, db.feeds.find? (fun f => f.id = fid) = some feed →
      feed.is_active = true → resp.status = 200 → resp.body = xml →
      parseFeedRun env db fid resp = .error (.retriable e)) := by
  refine ⟨by simp [parseRssXml, h], fun m => by simp [parseRssXml, h],
    fun db fid resp feed hf ha hs hb => ?_⟩
  have hfetch : fetchRssFeed resp = .ok (.modified resp.body resp.etag resp.lastModified) := by
    simp [fetchRssFeed, hs, responseOk]
  simp [parseFeedRun, hf, ha, hfetch, parseRssXml, hb, h]

/-- Witness for C3 at a concrete malformed body: the run errors with the
retriable classification. -/
theorem parse_failure_surfaces_as_retriable_witness :
    c3Env.parseRss "this is not xml" = .error "Invalid XML" ∧
    parseRssXml c3Env "this is not xml" = .error (.retriable "Invalid XML") ∧
    parseFeedRun c3Env c3Db 1 c3Resp = .error (.retriable "Invalid XML") :=
  ⟨rfl,
   (parse_failure_surfaces_as_retriable c3Env "this is not xml" "Invalid XML" rfl).1,
   (parse_failure_surfaces_as_retriable c3Env "this is not xml" "Invalid XML" rfl).2.2
     c3Db 1 c3Resp c3Feed rfl rfl rfl rfl⟩

/-- C10: on a 304 Not Modified response the run short-circuits after
`update-last-fetched`: the only mutation is `last_fetched_at := now` on
the feed row (every other column of every feed row, including the cache
validators, descriptive metadata, error counter and `last_success_at`,
is untouched — the per-field equations make the updater's frame
explicit), articles and subscriptions are untouched, and no fan-out
events or notifications are emitted. -/
theorem notModified_frame_spec (env : JsEnv) (db : Db) (feedId : Nat)
    (resp : HttpResponse) (feed : FeedRow)
    (hf : db.feeds.find? (fun f => f.id = feedId) = some feed)
    (ha : feed.is_active = true) (h304 : resp.status = 304) :
    parseFeedRun env db feedId resp = Except.ok
      { db := { db with feeds := db.feeds.map (fun f =>
          if f.id = feedId then { f with last_fetched_at := some env.now } else f) }
        fanOut := [], notified := [], status := "not-modified"
        feedTitle := none, totalItems := 0, newArticles := 0 } ∧
    (∀ f : FeedRow,
      ({ f with last_fetched_at := some env.now } : FeedRow).id = f.id ∧
      ({ f with last_fetched_at := some env.now } : FeedRow).url = f.url ∧
      ({ f with last_fetched_at := some env.now } : FeedRow).slug = f.slug ∧
      ({ f with last_fetched_at := some env.now } : FeedRow).title = f.title ∧
      ({ f with last_fetched_at := some env.now } : FeedRow).description = f.description ∧
      ({ f with last_fetched_at := some env.now } : FeedRow).link = f.link ∧
      ({ f with last_fetched_at := some env.now } : FeedRow).language = f.language ∧
      ({ f with last_fetched_at := some env.now } : FeedRow).author_name = f.author_name ∧
      ({ f with last_fetched_at := some env.now } : FeedRow).image_url = f.image_url ∧
      ({ f with last_fetched_at := some env.now } : FeedRow).image_title = f.image_title ∧
      ({ f with last_fetched_at := some env.now } : FeedRow).last_build_date = f.last_build_date ∧
      ({ f with last_fetched_at := some env.now } : FeedRow).ttl = f.ttl ∧
      ({ f with last_fetched_at := some env.now } : FeedRow).etag = f.etag ∧
      ({ f with last_fetched_at := some env.now } : FeedRow).last_modified_header = f.last_modified_header ∧
      ({ f with last_fetched_at := some env.now } : FeedRow).last_success_at = f.last_success_at ∧
      ({ f with last_fetched_at := some env.now } : FeedRow).fetch_error_count = f.fetch_error_count ∧
      ({ f with last_fetched_at := some env.now } : FeedRow).fetch_error_message = f.fetch_error_message ∧
      ({ f with last_fetched_at := some env.now } : FeedRow).is_active = f.is_active) ∧
    (∀ fs : List FeedRow,
      ({ db with feeds := fs } : Db).articles = db.articles ∧
      ({ db with feeds := fs } : Db).subscriptions = db.subscriptions ∧
      ({ db with feeds := fs } : Db).nextArticleId = db.nextArticleId) := by
  refine ⟨?_, fun f => ⟨rfl, rfl, rfl, rfl, rfl, rfl, rfl, rfl, rfl, rfl, rfl, rfl,
    rfl, rfl, rfl, rfl, rfl, rfl⟩, fun fs => ⟨rfl, rfl, rfl⟩⟩
  have hfetch : fetchRssFeed resp = .ok .notModified := by simp [fetchRssFeed, h304]
  simp [parseFeedRun, hf, ha, hfetch]

/-- Witness for C10 at a concrete store and 304 response. -/
theorem notModified_frame_spec_witness :
    parseFeedRun c10Env c10Db 7 c10Resp = Except.ok
      { db := { c10Db with feeds := c10Db.feeds.map (fun f =>
          if f.id = 7 then { f with last_fetched_at := some c10Env.now } else f) }
        fanOut := [], notified := [], status := "not-modified"
        feedTitle := none, totalItems := 0, newArticles := 0 } ∧
    ({ c10Feed with last_fetched_at := some c10Env.now } : FeedRow).etag = c10Feed.etag :=
  ⟨(notModified_frame_spec c10Env c10Db 7 c10Resp c10Feed rfl rfl rfl).1,
   ((notModified_frame_spec c10Env c10Db 7 c10Resp c10Feed rfl rfl rfl).2.1 c10Feed).2.2.2.2.2.2.2.2.2.2.2.2.1⟩

/-! Length bounds for the slug generator. -/

theorem natCharsAux_length_le :
    ∀ (fuel n d : Nat), 1 ≤ d → n < 10 ^ d → (natCharsAux fuel n).length ≤ d := by
  intro fuel
  induction fuel with
  | zero => intro n d _ _; simp [natCharsAux]
  | succ fuel ih =>
    intro n d h1 h2
    by_cases h10 : n < 10
    · simpa [natCharsAux, h10] using h1
    · have hd2 : 2 ≤ d := by
        by_contra hlt
        push_neg at hlt
        have hd1 : d = 1 := by omega
        subst hd1
        rw [pow_one] at h2
        omega
      have hdiv : n / 10 < 10 ^ (d - 1) := by
        rw [Nat.div_lt_iff_lt_mul (by norm_num)]
        calc n < 10 ^ d := h2
          _ = 10 ^ (d - 1) * 10 := by
              rw [← pow_succ]
              congr 1
              omega
      have hrec := ih (n / 10) (d - 1) (by omega) hdiv
      simp only [natCharsAux, h10, if_false, List.length_append, List.length_cons,
        List.length_nil]
      omega

theorem natChars_length_le (n d : Nat) (h1 : 1 ≤ d) (h2 : n < 10 ^ d) :
    (natChars n).length ≤ d :=
  natCharsAux_length_le (n + 1) n d h1 h2

theorem suffixSlug_length_le (base : String) (k : Nat) (h : k < 10 ^ 99) :
    (suffixSlug base k).length ≤ 100 := by
  have hd : (natChars k).length ≤ 99 := natChars_length_le k 99 (by norm_num) h
  have hlen : (suffixSlug base k).length =
      (base.data.take (100 - ((natChars k).length + 1))).length + ((natChars k).length + 1) := by
    show (base.data.take (100 - ('-' :: natChars k).length) ++ ('-' :: natChars k)).length = _
    simp [List.length_append, List.length_cons]
  have ht : (base.data.take (100 - ((natChars k).length + 1))).length ≤
      100 - ((natChars k).length + 1) := by
    exact List.length_take_le (100 - ((natChars k).length + 1)) base.data
  omega

theorem candidateSlug_length_le (base : String) (k : Nat) (hb : base.length ≤ 100)
    (h : k < 10 ^ 99) : (candidateSlug base k).length ≤ 100 := by
  cases k with
  | zero => exact hb
  | succ k => exact suffixSlug_length_le base (k + 1) h

theorem findFreeSlug_eq_candidate (existing : List String) (base : String) :
    ∀ fuel k, ∃ j, k ≤ j ∧ j ≤ k + fuel ∧
      findFreeSlug existing base fuel k = candidateSlug base j := by
  intro fuel
  induction fuel with
  | zero => intro k; exact ⟨k, le_refl k, by omega, rfl⟩
  | succ fuel ih =>
    intro k
    cases hc : existing.contains (candidateSlug base k) with
    | false =>
      have hc' : candidateSlug base k ∉ existing := by simpa using hc
      exact ⟨k, le_refl k, by omega, by simp [findFreeSlug, hc']⟩
    | true =>
      have hc' : candidateSlug base k ∈ existing := by simpa using hc
      obtain ⟨j, h1, h2, h3⟩ := ih (k + 1)
      exact ⟨j, by omega, by omega, by simp [findFreeSlug, hc', h3]⟩

theorem slugifyTitle_length_le (t : String) : (slugifyTitle t).length ≤ 100 := by
  simp only [slugifyTitle, String.length]
  exact List.length_take_le 100 _

theorem hostSlug_length_le (h : String) : (hostSlug h).length ≤ 100 := by
  simp only [hostSlug, String.length]
  exact List.length_take_le 100 _

theorem ifEmpty_length_le (s d : String) (hs : s.length ≤ 100) (hd : d.length ≤ 100) :
    (if s = "" then d else s).length ≤ 100 := by
  split_ifs <;> assumption

theorem feedBaseSlug_length_le (hn : String → Option String) (title : Option String)
    (url : String) : (feedBaseSlug hn title url).length ≤ 100 := by
  cases title with
  | none =>
    unfold feedBaseSlug
    dsimp only
    refine ifEmpty_length_le _ _ (ifEmpty_length_le _ _ (by decide) ?_) (by decide)
    cases hn url with
    | none => decide
    | some h => exact hostSlug_length_le h
  | some t =>
    unfold feedBaseSlug
    dsimp only
    refine ifEmpty_length_le _ _ (ifEmpty_length_le _ _ ?_ ?_) (by decide)
    · split_ifs
      · exact slugifyTitle_length_le t
      · decide
    · cases hn url with
      | none => decide
      | some h => exact hostSlug_length_le h

/-- C8: slug generation is a deterministic function of the title, the
URL and the set of occupied slugs: `"Hacker News"` with no occupants
yields `hacker-news`; a base colliding with occupant `test-blog` yields
`test-blog-1`; and the result never exceeds 100 characters (the base is
truncated to make room for the numeric suffix) for every store small
enough that the suffix stays below 100 digits — a bound every reachable
store satisfies. -/
theorem generateUniqueSlug_spec :
    (∀ hn url, generateUniqueSlug hn (some "Hacker News") url [] = "hacker-news") ∧
    (∀ hn url, generateUniqueSlug hn (some "Test Blog") url ["test-blog"] = "test-blog-1") ∧
    (∀ hn title url existing, existing.length + 2 ≤ 10 ^ 99 →
      (generateUniqueSlug hn title url existing).length ≤ 100) := by
  refine ⟨fun hn url => rfl, fun hn url => rfl, fun hn title url existing h => ?_⟩
  unfold generateUniqueSlug
  obtain ⟨j, hk, hj, heq⟩ :=
    findFreeSlug_eq_candidate existing (feedBaseSlug hn title url) (existing.length + 1) 0
  rw [heq]
  refine candidateSlug_length_le _ _ (feedBaseSlug_length_le hn title url) ?_
  have hle : j + 1 ≤ 10 ^ 99 := le_trans (by omega) h
  omega

/-- Witness for C8 at concrete inputs (the length bound instantiated at
the one-occupant store). -/
theorem generateUniqueSlug_spec_witness :
    generateUniqueSlug (fun _ => none) (some "Hacker News")
      "https://news.ycombinator.com/rss" [] = "hacker-news" ∧
    generateUniqueSlug (fun _ => none) (some "Test Blog")
      "https://example2.com/feed" ["test-blog"] = "test-blog-1" ∧
    (["test-blog"] : List String).length + 2 ≤ 10 ^ 99 ∧
    (generateUniqueSlug (fun _ => none) (some "Test Blog")
      "https://example2.com/feed" ["test-blog"]).length ≤ 100 :=
  ⟨generateUniqueSlug_spec.1 (fun _ => none) "https://news.ycombinator.com/rss",
   generateUniqueSlug_spec.2.1 (fun _ => none) "https://example2.com/feed",
   by norm_num,
   generateUniqueSlug_spec.2.2 (fun _ => none) (some "Test Blog")
     "https://example2.com/feed" ["test-blog"] (by norm_num)⟩

/-! Order facts for the `published_at DESC` sort. -/

theorem lexLe_total : ∀ a b : List Char, lexLe a b = true ∨ lexLe b a = true := by
  intro a
  induction a with
  | nil => intro b; exact Or.inl rfl
  | cons x xs ih =>
    intro b
    cases b with
    | nil => exact Or.inr rfl
    | cons y ys =>
      rcases Nat.lt_trichotomy x.toNat y.toNat with h1 | h1 | h1
      · left; rw [lexLe, if_pos h1]
      · rcases ih ys with h | h
        · left; rw [lexLe, if_neg (by omega), if_neg (by omega)]; exact h
        · right; rw [lexLe, if_neg (by omega), if_neg (by omega)]; exact h
      · right; rw [lexLe, if_pos h1]

theorem lexLe_trans :
    ∀ a b c : List Char, lexLe a b = true → lexLe b c = true → lexLe a c = true := by
  intro a
  induction a with
  | nil => intro b c _ _; rfl
  | cons x xs ih =>
    intro b c hab hbc
    cases b with
    | nil => rw [lexLe] at hab; cases hab
    | cons y ys =>
      cases c with
      | nil => rw [lexLe] at hbc; cases hbc
      | cons z zs =>
        rcases Nat.lt_trichotomy x.toNat y.toNat with h1 | h1 | h1
        · rcases Nat.lt_trichotomy y.toNat z.toNat with h2 | h2 | h2
          · rw [lexLe, if_pos (by omega)]
          · rw [lexLe, if_pos (by omega)]
          · rw [lexLe, if_neg (by omega), if_pos (by omega)] at hbc; cases hbc
        · rcases Nat.lt_trichotomy y.toNat z.toNat with h2 | h2 | h2
          · rw [lexLe, if_pos (by omega)]
          · rw [lexLe, if_neg (by omega), if_neg (by omega)] at hab
            rw [lexLe, if_neg (by omega), if_neg (by omega)] at hbc
            rw [lexLe, if_neg (by omega), if_neg (by omega)]
            exact ih ys zs hab hbc
          · rw [lexLe, if_neg (by omega), if_pos (by omega)] at hbc; cases hbc
        · rw [lexLe, if_neg (by omega), if_pos (by omega)] at hab; cases hab

theorem pubGe_total : ∀ a b : Option String, pubGe a b = true ∨ pubGe b a = true := by
  intro a b
  cases a <;> cases b <;> simp [pubGe]
  exact lexLe_total _ _

theorem pubGe_trans : ∀ a b c : Option String,
    pubGe a b = true → pubGe b c = true → pubGe a c = true := by
  intro a b c hab hbc
  cases a <;> cases b <;> cases c <;> simp [pubGe] at hab hbc ⊢
  exact lexLe_trans _ _ _ hbc hab

theorem mem_insertByPub (x : ArticleRow) :
    ∀ (l : List ArticleRow) (a : ArticleRow), a ∈ insertByPub x l ↔ a = x ∨ a ∈ l := by
  intro l
  induction l with
  | nil => intro a; simp [insertByPub]
  | cons y ys ih =>
    intro a
    by_cases hc : (pubGe y.published_at x.published_at &&
        !pubGe x.published_at y.published_at) = true
    · have hrw : insertByPub x (y :: ys) = y :: insertByPub x ys := by
        simp only [insertByPub]; rw [if_pos hc]
      rw [hrw]
      simp only [List.mem_cons, ih]
      tauto
    · have hrw : insertByPub x (y :: ys) = x :: y :: ys := by
        simp only [insertByPub]; rw [if_neg hc]
      rw [hrw]
      simp only [List.mem_cons]

theorem pairwise_insertByPub (x : ArticleRow) :
    ∀ l, List.Pairwise (fun a b : ArticleRow => pubGe a.published_at b.published_at = true) l →
      List.Pairwise (fun a b : ArticleRow => pubGe a.published_at b.published_at = true)
        (insertByPub x l) := by
  intro l
  induction l with
  | nil => intro _; simp [insertByPub]
  | cons y ys ih =>
    intro h
    rcases List.pairwise_cons.mp h with ⟨hy, hys⟩
    by_cases hc : (pubGe y.published_at x.published_at &&
        !pubGe x.published_at y.published_at) = true
    · have hrw : insertByPub x (y :: ys) = y :: insertByPub x ys := by
        simp [insertByPub, hc]
      rw [hrw]
      refine List.pairwise_cons.mpr ⟨?_, ih hys⟩
      intro b hb
      rcases (mem_insertByPub x ys b).mp hb with rfl | hbys
      · exact ((Bool.and_eq_true _ _).mp hc).1
      · exact hy b hbys
    · have hrw : insertByPub x (y :: ys) = x :: y :: ys := by
        simp only [insertByPub]
        rw [if_neg hc]
      rw [hrw]
      have hxy : pubGe x.published_at y.published_at = true := by
        rcases pubGe_total x.published_at y.published_at with h' | h'
        · exact h'
        · by_contra hne
          have hnx : pubGe x.published_at y.published_at = false :=
            Bool.eq_false_iff.mpr hne
          exact hc (by simp [h', hnx])
      refine List.pairwise_cons.mpr ⟨?_, h⟩
      intro b hb
      rcases List.mem_cons.mp hb with rfl | hbys
      · exact hxy
      · exact pubGe_trans _ _ _ hxy (hy b hbys)

theorem sortByPubDesc_pairwise :
    ∀ l, List.Pairwise (fun a b : ArticleRow => pubGe a.published_at b.published_at = true)
      (sortByPubDesc l) := by
  intro l
  induction l with
  | nil => simp [sortByPubDesc]
  | cons x xs ih => exact pairwise_insertByPub x (sortByPubDesc xs) ih

/-! Inversion of a successful refresh run. -/

theorem parseFeedRun_ok_shape (env : JsEnv) (db : Db) (fid : Nat) (resp : HttpResponse)
    (out : RunOutput) (h : parseFeedRun env db fid resp = .ok out) :
    (out.db.articles = db.articles ∧ out.fanOut = [] ∧ out.newArticles = 0) ∨
    (∃ feed parsed etag lm,
      out.db = (insertArticles env (updateFeedMetadata env db feed fid parsed etag lm)
        fid parsed.items).1 ∧
      out.newArticles = (insertArticles env (updateFeedMetadata env db feed fid parsed etag lm)
        fid parsed.items).2.length ∧
      out.fanOut = (if (insertArticles env (updateFeedMetadata env db feed fid parsed etag lm)
          fid parsed.items).2.isEmpty then []
        else recentArticleIds (insertArticles env
          (updateFeedMetadata env db feed fid parsed etag lm) fid parsed.items).1 fid)) := by
  unfold parseFeedRun at h
  split at h
  · cases h
  · split at h
    · cases h
    · split at h
      · cases h
      · left
        injection h with h2
        subst h2
        exact ⟨rfl, rfl, rfl⟩
      · split at h
        · cases h
        · right
          injection h with h2
          subst h2
          exact ⟨_, _, _, _, rfl, rfl, rfl⟩

/-! Dedup preservation. -/

theorem insertArticles_keyUnique (env : JsEnv) (fid : Nat) :
    ∀ (items : List FeedItem) (db : Db), articlesKeyUnique db.articles →
      articlesKeyUnique (insertArticles env db fid items).1.articles := by
  intro items
  induction items with
  | nil => intro db h; exact h
  | cons item rest ih =>
    intro db h
    cases hk : keyExists db.articles fid (guidOf item) with
    | true =>
      have hrw : insertArticles env db fid (item :: rest) =
          insertArticles env db fid rest := by
        simp [insertArticles, hk]
      rw [hrw]
      exact ih db h
    | false =>
      have hnotin : ∀ a ∈ db.articles, ¬(a.feed_id = fid ∧ a.guid = guidOf item) := by
        intro a ha hcontra
        have : keyExists db.articles fid (guidOf item) = true := by
          simp only [keyExists, List.any_eq_true]
          exact ⟨a, ha, by simp [hcontra.1, hcontra.2]⟩
        rw [this] at hk
        cases hk
      have hrw : (insertArticles env db fid (item :: rest)).1 =
          (insertArticles env { db with
            articles := db.articles ++ [rowOfItem env db fid item]
            nextArticleId := db.nextArticleId + 1 } fid rest).1 := by
        simp [insertArticles, hk]
      rw [hrw]
      apply ih
      show articlesKeyUnique (db.articles ++ [rowOfItem env db fid item])
      rw [articlesKeyUnique, List.pairwise_append]
      refine ⟨h, by simp, ?_⟩
      intro a ha b hb
      simp only [List.mem_singleton] at hb
      subst hb
      intro hcontra
      exact hnotin a ha ⟨hcontra.1, hcontra.2⟩

theorem applyRun_keyUnique (run : JsEnv × Nat × HttpResponse) (db : Db)
    (h : articlesKeyUnique db.articles) : articlesKeyUnique (applyRun db run).articles := by
  unfold applyRun
  cases heq : parseFeedRun run.1 db run.2.1 run.2.2 with
  | error e => exact h
  | ok out =>
    show articlesKeyUnique out.db.articles
    rcases parseFeedRun_ok_shape _ _ _ _ _ heq with ⟨ha, _, _⟩ | ⟨feed, parsed, etag, lm, hdb, _, _⟩
    · rw [ha]; exact h
    · rw [hdb]
      exact insertArticles_keyUnique run.1 run.2.1 parsed.items _ h

/-- C5: after any sequence of refresh runs starting from a store whose
articles have pairwise-distinct `(feed_id, guid)` keys, the keys are
still pairwise distinct — at most one row per key — and an insertion
whose key already exists is a no-op that the entry loop skips over (the
duplicate is not counted as new and the remaining entries are processed
exactly as if it were absent), not an error. -/
theorem articles_dedup_spec (db : Db) (runs : List (JsEnv × Nat × HttpResponse))
    (h : articlesKeyUnique db.articles) :
    articlesKeyUnique ((runs.foldl applyRun db).articles) ∧
    (∀ env d fid item rest, keyExists d.articles fid (guidOf item) = true →
      insertArticles env d fid (item :: rest) = insertArticles env d fid rest) := by
  constructor
  · induction runs generalizing db with
    | nil => exact h
    | cons r rs ih => exact ih (applyRun db r) (applyRun_keyUnique r db h)
  · intro env d fid item rest hk
    simp [insertArticles, hk]

/-- Witness for C5: the invariant instantiated at a one-article store and
the skip equation at an entry whose key collides with that article. -/
theorem articles_dedup_spec_witness :
    articlesKeyUnique (([] : List (JsEnv × Nat × HttpResponse)).foldl applyRun c5Db).articles ∧
    insertArticles c5Env c5Db 1 [c5Item] = insertArticles c5Env c5Db 1 [] :=
  ⟨(articles_dedup_spec c5Db [] (by simp [articlesKeyUnique, c5Db])).1,
   (articles_dedup_spec c5Db [] (by simp [articlesKeyUnique, c5Db])).2
     c5Env c5Db 1 c5Item [] (by decide)⟩

/-- C1 (counterexample to the claim as stated): with one pre-existing
article (id 1, published 2026-01-15) and a refresh inserting a single
new article (id 2, published 2026-01-10), the run reports one new
article but fans out `[1, 2]` — including article 1, which was *not*
inserted by this run — so the fan-out selection is not chosen among the
newly inserted articles. -/
theorem parseFeed_fanout_includes_preexisting_article :
    (parseFeedRun c1Env c1Db 1 c1Resp).map (fun o => (o.fanOut, o.newArticles)) =
      Except.ok ([1, 2], 1) ∧
    (1 : Nat) ∈ c1Db.articles.map (fun a => a.id) ∧
    ¬((1 : Nat) ∈ ([2] : List Nat)) :=
  ⟨by rfl, by decide, by decide⟩

/-- C1 (amended): for every refresh run that inserts at least one new
article, the fanned-out jobs are exactly the `get-recent-articles`
selection over *all* stored articles of the feed — the 20 most recently
published, ordered by publish date descending (nulls last), independent
of insertion order — with at most 20 jobs. -/
theorem parseFeed_fanout_selects_recent_of_all_articles (env : JsEnv) (db : Db)
    (fid : Nat) (resp : HttpResponse) (out : RunOutput)
    (h : parseFeedRun env db fid resp = .ok out) (hnew : 0 < out.newArticles) :
    out.fanOut = recentArticleIds out.db fid ∧
    out.fanOut = ((sortByPubDesc (out.db.articles.filter (fun a => a.feed_id = fid))).take 20).map
      (fun a => a.id) ∧
    out.fanOut.length ≤ 20 ∧
    (∀ l, List.Pairwise (fun a b : ArticleRow => pubGe a.published_at b.published_at = true)
      (sortByPubDesc l)) := by
  have hfan : out.fanOut = recentArticleIds out.db fid := by
    rcases parseFeedRun_ok_shape env db fid resp out h with ⟨_, _, hz⟩ |
      ⟨feed, parsed, etag, lm, hdb, hn, hf⟩
    · omega
    · have hempty : (insertArticles env (updateFeedMetadata env db feed fid parsed etag lm)
          fid parsed.items).2.isEmpty = false := by
        rw [hn] at hnew
        cases hlist : (insertArticles env (updateFeedMetadata env db feed fid parsed etag lm)
            fid parsed.items).2 with
        | nil => rw [hlist] at hnew; simp at hnew
        | cons a as => simp [hlist]
      rw [hf, hempty, hdb]
      simp
  refine ⟨hfan, by rw [hfan]; rfl, ?_, fun l => sortByPubDesc_pairwise l⟩
  rw [hfan]
  unfold recentArticleIds
  rw [List.length_map]
  exact List.length_take_le _ _

/-- Witness for the amended C1 at the concrete run above. -/
theorem parseFeed_fanout_selects_recent_witness :
    parseFeedRun c1Env c1Db 1 c1Resp = .ok c1Out ∧
    0 < c1Out.newArticles ∧
    c1Out.fanOut = recentArticleIds c1Out.db 1 :=
  ⟨by rfl, by decide,
   (parseFeed_fanout_selects_recent_of_all_articles c1Env c1Db 1 c1Resp c1Out
     (by rfl) (by decide)).1⟩

end RssReader
